import Mathlib

/-!
Verification of the population-synthesis module (`population.py`) of PyABM.

The development shallowly embeds the module's core algorithms over exact
rationals and pure lists:

* `_proportional_fit` — the iterative proportional fitting (IPF) loop with the
  upper-triangular structural-zero pattern (source lines 23-46), embedded with
  an explicit fuel parameter standing for the number of iterations of the
  unbounded `while` loop.
* `_rand_assignment` / `_get_assignments` — the capacity-constrained random
  assignment sampler (source lines 48-64), with the random shuffle abstracted
  as a permutation-valued parameter.
* `add_household` / `create_households` — the population builder
  (source lines 66-124), with the four assignment streams embedded as lists
  consumed in order, and iterator exhaustion (`StopIteration`) as `none`.

Machine reals are embedded as exact rationals; a division whose divisor is a
zero row/column sum — undefined behaviour of the iteration, where numpy would
emit non-numeric values (nan/inf) — is flagged as the error `FitError.divByZero`
at the first point such a division would be performed.
-/

/-- Python 2 `round`: round half away from zero (`round` in the source is
applied to cell values and the table total before `int` conversion). -/
def pyRound (x : ℚ) : ℤ :=
  if x < 0 then -⌊-x + 1/2⌋ else ⌊x + 1/2⌋

/-- A numpy 2-d table, as a list of rows of rationals. -/
abbrev Mat := List (List ℚ)

/-- Entry `T[i, j]`, defaulting to `0` out of range. -/
def entry (T : Mat) (i j : ℕ) : ℚ := (T.getD i []).getD j 0

/-- Number of rows of the table (`table.shape[0]`). -/
def nRows (T : Mat) : ℕ := T.length

/-- Number of columns of the table (`table.shape[1]`, read off the first row;
all tables produced by the fitter are rectangular). -/
def nCols (T : Mat) : ℕ := (T.headD []).length

/-- Sum of all entries of the table (`table.sum()`). -/
def matSum (T : Mat) : ℚ := (T.map List.sum).sum

/-- Modelled from the spec: `utils.ndrange` is imported by `population.py` but
`utils.py` is not under `src/`; per the spec the builder "walks every
(fleet-row, size-column) cell" of the table, i.e. row-major iteration over all
index pairs of an `n × m` shape. -/
def ndrange (n m : ℕ) : List (ℕ × ℕ) :=
  ((List.range n).map fun i => (List.range m).map fun j => (i, j)).flatten

/-- Errors of the proportional fitter.  `unequalTotals` is the source's
`assert row_sum.sum() == col_sum.sum()`; `divByZero` marks a rescaling division
by a zero row/column sum (undefined behaviour, nan/inf in numpy); `noConverge`
is exhaustion of the iteration fuel, i.e. the concrete run would still be
looping after that many iterations. -/
inductive FitError
  | unequalTotals
  | divByZero
  | noConverge
deriving DecidableEq, Repr

/-- Initial table of the fitter: ones with the upper-triangular structural-zero
pattern, `0` where `i > j` (source lines 31-35). -/
def initTable (n m : ℕ) : Mat :=
  (List.range n).map fun i => (List.range m).map fun j => if j < i then (0 : ℚ) else 1

/-- Row proportional fitting step:
`table = row_sum * (table / table.sum(1).reshape(n_row, 1))` (source line 40).
A zero row sum of a nonempty row means numpy would divide cell values by zero;
this is flagged as `none`. -/
def rowFit (row_sum : List ℚ) (T : Mat) : Option Mat :=
  if ∃ row ∈ T, row ≠ [] ∧ row.sum = 0 then none
  else some ((row_sum.zip T).map fun p => p.2.map fun x => p.1 * (x / p.2.sum))

/-- Column sums of the table (`table.sum(0)`), one per column of the first row;
all tables reaching this point are rectangular. -/
def colSums (T : Mat) : List ℚ :=
  T.foldl (fun acc row => acc.zipWith (fun a b => a + b) row) (List.replicate (nCols T) 0)

/-- Column proportional fitting step:
`table = col_sum * (table / table.sum(0).reshape(1, n_col))` (source line 42).
A zero column sum with at least one row present means numpy would divide cell
values by zero; this is flagged as `none`. -/
def colFit (col_sum : List ℚ) (T : Mat) : Option Mat :=
  let cs := colSums T
  if T ≠ [] ∧ ∃ s ∈ cs, s = 0 then none
  else some (T.map fun row => (row.zip (col_sum.zip cs)).map fun p => p.2.1 * (p.1 / p.2.2))

/-- Row squared error of the loop's convergence test:
`row_diff = table.sum(1).reshape(n_row, 1) - row_sum; (row_diff*row_diff).sum()`
(source lines 44-45). -/
def rowErrSq (T : Mat) (row_sum : List ℚ) : ℚ :=
  ((T.map List.sum).zipWith (fun s r => (s - r) * (s - r)) row_sum).sum

/-- One body of the fitter's `while` loop: row fit, column fit, then the row
squared error of the resulting table (source lines 38-45). -/
def fitIter (row_sum col_sum : List ℚ) (T : Mat) : Except FitError (Mat × ℚ) :=
  match rowFit row_sum T with
  | none => .error .divByZero
  | some T1 =>
    match colFit col_sum T1 with
    | none => .error .divByZero
    | some T2 => .ok (T2, rowErrSq T2 row_sum)

/-- The fitter's `while row_err > tolerance` loop, with fuel bounding the
number of iterations the model is allowed to unfold.  The loop body has already
run once when the error is first compared (the source initialises
`row_err = +inf`), so the comparison happens after each body. -/
def fitLoop (row_sum col_sum : List ℚ) (tolerance : ℚ) : ℕ → Mat → Except FitError Mat
  | 0, _ => .error .noConverge
  | fuel + 1, T =>
    match fitIter row_sum col_sum T with
    | .error e => .error e
    | .ok (T2, err) =>
      if tolerance < err then fitLoop row_sum col_sum tolerance fuel T2 else .ok T2

/-- `Population._proportional_fit` (source lines 23-46): check the equal-totals
assertion, initialise the structurally-zero table and iterate until the row
squared error is at most the tolerance. -/
def _proportional_fit (fuel : ℕ) (row_sum col_sum : List ℚ) (tolerance : ℚ) :
    Except FitError Mat :=
  if row_sum.sum = col_sum.sum then
    fitLoop row_sum col_sum tolerance fuel (initTable row_sum.length col_sum.length)
  else .error .unequalTotals

section Sampler

variable {α : Type}

/-- Total capacity `sum(capacity.values())`. -/
def capsum (capacity : List (α × ℕ)) : ℕ := (capacity.map fun p => p.2).sum

/-- `Population._rand_assignment` (source lines 48-56): expand each slot to
`capacity` copies, then shuffle the flat pool.  The `random.shuffle` call is
abstracted as the function parameter `shuffle`; theorems assume it permutes its
input, which is all `random.shuffle` guarantees. -/
def _rand_assignment (shuffle : List α → List α) (capacity : List (α × ℕ)) : List α :=
  shuffle ((capacity.map fun p => List.replicate p.2 p.1).flatten)

/-- Error of the assignment sampler: the source's
`assert capsum >= total, "%d available alternatives < %d required slots"`,
carrying the two offending quantities of the assertion message. -/
inductive AsgError
  | capacityExceeded (available required : ℕ)
deriving DecidableEq, Repr

/-- `Population._get_assignments` (source lines 58-64): assert that the total
capacity covers the request, then return the first `total` entries of the
shuffled pool. -/
def _get_assignments (shuffle : List α → List α) (capacity : List (α × ℕ))
    (total : ℕ) : Except AsgError (List α) :=
  if capsum capacity < total then .error (.capacityExceeded (capsum capacity) total)
  else .ok ((_rand_assignment shuffle capacity).take total)

/-- State-passing form of `_rand_assignment`, returning alongside the result
the capacity mapping as it stands after the call: the source only reads the
mapping (`capacity.items()`), building and shuffling a fresh list, so the
mapping is returned as received. -/
def _rand_assignment_state (shuffle : List α → List α) (capacity : List (α × ℕ)) :
    List α × List (α × ℕ) :=
  (shuffle ((capacity.map fun p => List.replicate p.2 p.1).flatten), capacity)

/-- State-passing form of `_get_assignments`, returning alongside the result
the capacity mapping as it stands after the call. -/
def _get_assignments_state (shuffle : List α → List α) (capacity : List (α × ℕ))
    (total : ℕ) : Except AsgError (List α) × List (α × ℕ) :=
  if capsum capacity < total then (.error (.capacityExceeded (capsum capacity) total), capacity)
  else
    let pr := _rand_assignment_state shuffle capacity
    (.ok (pr.1.take total), pr.2)

end Sampler

/-- `Adult` (source lines 169-178): identity, residence, office and activity
program.  An activity program is a tuple of activity identities, embedded as a
list of naturals. -/
structure Adult where
  id : ℕ
  residence : ℕ
  office : ℕ
  program : List ℕ
deriving DecidableEq, Repr

/-- `Child` (source lines 181-190): identity, residence, school and activity
program. -/
structure Child where
  id : ℕ
  residence : ℕ
  school : ℕ
  program : List ℕ
deriving DecidableEq, Repr

/-- `Household` (source lines 127-148): identity, size, fleet category,
residence, activity program and the adult/child lists populated during its own
construction. -/
structure Household where
  id : ℕ
  size : ℕ
  fleet : ℕ
  residence : ℕ
  program : List ℕ
  adults : List Adult
  children : List Child
deriving DecidableEq, Repr

/-- The `Population` pools (source lines 18-21): all households, all adults,
all children, and the flat list of all individuals. -/
structure PopState where
  households : List Household
  adults : List Adult
  children : List Child
  individuals : List (Adult ⊕ Child)
deriving DecidableEq, Repr

/-- The `demand` collaborator at its interface: `get_activity` for the three
activity names used by the builder, and the `programs` mapping from
program-label to program-identity (a tuple of activity identities). -/
structure Demand where
  home : ℕ
  work : ℕ
  school : ℕ
  programs : List (ℕ × List ℕ)
deriving DecidableEq, Repr

/-- The `land` collaborator at its interface: `get_capacities` for the three
location categories used by the builder. -/
structure Land where
  home : List (ℕ × ℕ)
  work : List (ℕ × ℕ)
  school : List (ℕ × ℕ)
deriving DecidableEq, Repr

/-- The four assignment streams consumed in order by the builder
(`it_program`, `it_residence`, `it_office`, `it_school`). -/
structure Streams where
  programs : List (List ℕ)
  residences : List ℕ
  offices : List ℕ
  schools : List ℕ
deriving DecidableEq, Repr

/-- Workers contributed by one household of the given size:
`wknum = 2 if size > 3 else size` (source lines 71 and 103). -/
def hh_workers (size : ℕ) : ℕ := if 3 < size then 2 else size

/-- Students contributed by one household of the given size:
`stnum = 0 if size < 3 else size - 2` (source lines 73 and 105). -/
def hh_students (size : ℕ) : ℕ := if size < 3 then 0 else size - 2

/-- The worker-creation loop of `add_household` (source lines 81-84): create
`n` adults at the household's residence, each consuming one office from the
stream (failing with `none` when the stream is exhausted), and append each to
the population's adult and individual pools and to the household's own list.
Modelled from the spec: `utils.add_object2pool` is not under `src/`; per the
spec each entity carries an identity, modelled as the length of the individual
pool at creation time (household identities likewise use the household pool). -/
def addAdultsLoop (residence : ℕ) (program : List ℕ) :
    ℕ → PopState → List ℕ → List Adult → Option (PopState × List ℕ × List Adult)
  | 0, st, offices, acc => some (st, offices, acc)
  | n + 1, st, offices, acc =>
    match offices with
    | [] => none
    | o :: rest =>
      let a : Adult := ⟨st.individuals.length, residence, o, program⟩
      addAdultsLoop residence program n
        { st with adults := st.adults ++ [a], individuals := st.individuals ++ [Sum.inl a] }
        rest (acc ++ [a])

/-- The student-creation loop of `add_household` (source lines 86-89),
analogous to `addAdultsLoop` with schools in place of offices. -/
def addChildrenLoop (residence : ℕ) (program : List ℕ) :
    ℕ → PopState → List ℕ → List Child → Option (PopState × List ℕ × List Child)
  | 0, st, schools, acc => some (st, schools, acc)
  | n + 1, st, schools, acc =>
    match schools with
    | [] => none
    | s :: rest =>
      let c : Child := ⟨st.individuals.length, residence, s, program⟩
      addChildrenLoop residence program n
        { st with children := st.children ++ [c], individuals := st.individuals ++ [Sum.inr c] }
        rest (acc ++ [c])

/-- `Population.add_household` (source lines 66-90): consume one program and
one residence, create the household, then create its `hh_workers size` adult
members (program `(home, work) + household.program`, each consuming an office)
and its `hh_students size` child members (program `(home, school) +
household.program`, each consuming a school).  `none` models an uncaught
`StopIteration` from an exhausted stream. -/
def add_household (size fleet : ℕ) (dem : Demand) (st : PopState) (ss : Streams) :
    Option (PopState × Streams × Household) :=
  match ss.residences, ss.programs with
  | res :: resRest, prog :: progRest =>
    let hid := st.households.length
    let adult_program := [dem.home, dem.work] ++ prog
    let child_program := [dem.home, dem.school] ++ prog
    match addAdultsLoop res adult_program (hh_workers size) st ss.offices [] with
    | none => none
    | some (st1, offRest, hhAdults) =>
      match addChildrenLoop res child_program (hh_students size) st1 ss.schools [] with
      | none => none
      | some (st2, schRest, hhChildren) =>
        let hh : Household := ⟨hid, size, fleet, res, prog, hhAdults, hhChildren⟩
        some ({ st2 with households := st2.households ++ [hh] },
              ⟨progRest, resRest, offRest, schRest⟩, hh)
  | _, _ => none

/-- Errors of `create_households`: a fitter error, a sampler error, a missing
program label in `demand.programs` (Python `KeyError`), or an exhausted
assignment stream (Python `StopIteration`). -/
inductive CHError
  | fit (e : FitError)
  | assign (e : AsgError)
  | progKey
  | streamEnd
deriving DecidableEq, Repr

/-- The inner `for _ in xrange(int(round(table[i, j])))` loop of the builder
(source line 122): create `n` households of one (size, fleet) pair. -/
def repeatHH (size fleet : ℕ) (dem : Demand) :
    ℕ → PopState → Streams → Option (PopState × Streams)
  | 0, st, ss => some (st, ss)
  | n + 1, st, ss =>
    match add_household size fleet dem st ss with
    | none => none
    | some (st1, ss1, _) => repeatHH size fleet dem n st1 ss1

/-- The cell walk of the builder (source lines 120-124): for each cell `(i, j)`
create `int(round(table[i, j]))` households of size `size_freq[j][0]` and fleet
`fleet_freq[i][0]`. -/
def runCells (dem : Demand) (size_freq fleet_freq : List (ℕ × ℕ)) (table : Mat) :
    List (ℕ × ℕ) → PopState → Streams → Option (PopState × Streams)
  | [], st, ss => some (st, ss)
  | (i, j) :: rest, st, ss =>
    match repeatHH (size_freq.getD j (0, 0)).1 (fleet_freq.getD i (0, 0)).1 dem
        ((pyRound (entry table i j)).toNat) st ss with
    | none => none
    | some (st1, ss1) => runCells dem size_freq fleet_freq table rest st1 ss1

/-- Target household count `hhnum = int(round(table.sum()))` (source line 99). -/
def hhnumOf (T : Mat) : ℕ := (pyRound (matSum T)).toNat

/-- Sum over all cells of the table of `int(round(table[i, j]))` — the total
number of `add_household` calls the cell walk performs. -/
def cellRoundSum (T : Mat) : ℕ :=
  ((ndrange (nRows T) (nCols T)).map fun p => (pyRound (entry T p.1 p.2)).toNat).sum

/-- The dict comprehension resolving program labels to program identities
(source line 107); `none` models a `KeyError` for label absent from
`demand.programs`. -/
def resolvePrograms (dem : Demand) (prog_freq : List (ℕ × ℕ)) :
    Option (List (List ℕ × ℕ)) :=
  prog_freq.mapM fun p => (dem.programs.lookup p.1).map fun pid => (pid, p.2)

/-- `Population.create_households` (source lines 92-124): fit the joint
fleet × size table from the stored marginal frequencies, derive the household,
worker and student totals, draw the four assignment streams, then walk the
table's cells creating the households.  The pools start empty, as the sole
entry point is called on a freshly constructed `Population`; the stored
frequency lists are the (sorted) constructor inputs.  The four `shuffle`
parameters stand for the four independent draws `random.shuffle` makes from
the global random stream. -/
def create_households (fuel : ℕ)
    (shuffleP : List (List ℕ) → List (List ℕ)) (shuffleR shuffleO shuffleS : List ℕ → List ℕ)
    (size_freq fleet_freq prog_freq : List (ℕ × ℕ)) (land : Land) (dem : Demand) :
    Except CHError PopState :=
  match _proportional_fit fuel (fleet_freq.map fun p => (p.2 : ℚ))
      (size_freq.map fun p => (p.2 : ℚ)) (1/100) with
  | .error e => .error (.fit e)
  | .ok table =>
    let hhnum := hhnumOf table
    let wknum := (size_freq.map fun p => hh_workers p.1 * p.2).sum
    let stnum := (size_freq.map fun p => hh_students p.1 * p.2).sum
    match resolvePrograms dem prog_freq with
    | none => .error .progKey
    | some program_freq =>
      match _get_assignments shuffleP program_freq hhnum with
      | .error e => .error (.assign e)
      | .ok programs =>
        match _get_assignments shuffleR land.home hhnum with
        | .error e => .error (.assign e)
        | .ok residences =>
          match _get_assignments shuffleO land.work wknum with
          | .error e => .error (.assign e)
          | .ok offices =>
            match _get_assignments shuffleS land.school stnum with
            | .error e => .error (.assign e)
            | .ok schools =>
              match runCells dem size_freq fleet_freq table
                  (ndrange (nRows table) (nCols table)) ⟨[], [], [], []⟩
                  ⟨programs, residences, offices, schools⟩ with
              | none => .error .streamEnd
              | some (st, _) => .ok st

/-! ### Helper lemmas about the assignment pool -/

/-- The capacity-expanded pool has exactly `capsum` elements. -/
theorem pool_length {α : Type} (capacity : List (α × ℕ)) :
    ((capacity.map fun p => List.replicate p.2 p.1).flatten).length = capsum capacity := by
  induction capacity with
  | nil => rfl
  | cons q rest ih =>
    simp [capsum, List.length_replicate] at ih ⊢
    omega

/-- A slot absent from the capacity mapping does not occur in the expanded pool. -/
theorem pool_count_zero {α : Type} [DecidableEq α] (capacity : List (α × ℕ)) (a : α)
    (ha : a ∉ capacity.map fun p => p.1) :
    ((capacity.map fun p => List.replicate p.2 p.1).flatten).count a = 0 := by
  induction capacity with
  | nil => rfl
  | cons q rest ih =>
    simp only [List.map_cons, List.flatten_cons, List.count_append]
    simp only [List.map_cons, List.mem_cons, not_or] at ha
    have h1 : ¬(q.1 = a) := fun h => ha.1 h.symm
    simp [List.count_replicate, h1, ih ha.2]

/-- With distinct slot keys, each slot occurs in the expanded pool exactly its
capacity count. -/
theorem pool_count {α : Type} [DecidableEq α] (capacity : List (α × ℕ))
    (hnd : (capacity.map fun p => p.1).Nodup) (p : α × ℕ) (hp : p ∈ capacity) :
    ((capacity.map fun q => List.replicate q.2 q.1).flatten).count p.1 = p.2 := by
  induction capacity with
  | nil => cases hp
  | cons q rest ih =>
    simp only [List.map_cons, List.flatten_cons, List.count_append]
    simp only [List.map_cons, List.nodup_cons] at hnd
    rcases List.mem_cons.1 hp with hq | hrest
    · subst hq
      simp [List.count_replicate, pool_count_zero rest p.1 hnd.1]
    · have hne : ¬(q.1 = p.1) := by
        intro h
        exact hnd.1 (h ▸ List.mem_map_of_mem (fun r => r.1) hrest)
      simp [List.count_replicate, hne, ih hnd.2 hrest]

/-- C4: for every capacity mapping (with distinct slot keys) and every
`total ≤ capsum`, the assignment sampler succeeds with a sequence of exactly
`total` slot-identities, each occurring at most its capacity count; `shuffle`
is only assumed to permute its input, as `random.shuffle` does. -/
theorem C4_sampler_exact_total {α : Type} [DecidableEq α]
    (shuffle : List α → List α) (capacity : List (α × ℕ)) (total : ℕ)
    (hsh : ∀ l, (shuffle l).Perm l)
    (hnd : (capacity.map fun p => p.1).Nodup)
    (hle : total ≤ capsum capacity) :
    ∃ out, _get_assignments shuffle capacity total = .ok out ∧
      out.length = total ∧ ∀ p ∈ capacity, out.count p.1 ≤ p.2 := by
  rw [_get_assignments, if_neg (Nat.not_lt.2 hle)]
  refine ⟨_, rfl, ?_, ?_⟩
  · rw [List.length_take, _rand_assignment, (hsh _).length_eq, pool_length]
    exact Nat.min_eq_left hle
  · intro p hp
    calc ((_rand_assignment shuffle capacity).take total).count p.1
        ≤ (_rand_assignment shuffle capacity).count p.1 :=
          (List.take_sublist total _).count_le p.1
      _ = ((capacity.map fun q => List.replicate q.2 q.1).flatten).count p.1 :=
          (hsh _).count_eq p.1
      _ = p.2 := pool_count capacity hnd p hp

/-- Witness for C4 at a concrete capacity mapping and total. -/
theorem C4_sampler_exact_total_witness :
    ∃ out, _get_assignments (fun l => l) [((0 : ℕ), 2), (1, 1)] 3 = .ok out ∧
      out.length = 3 ∧ ∀ p ∈ [((0 : ℕ), 2), (1, 1)], out.count p.1 ≤ p.2 :=
  C4_sampler_exact_total (fun l => l) [((0 : ℕ), 2), (1, 1)] 3
    (fun l => List.Perm.refl l) (by decide) (by decide)

/-- C5: requesting more than the total capacity always fails with the
capacity-exceeded error carrying the offending quantities; no shorter partial
sequence is returned. -/
theorem C5_sampler_capacity_error {α : Type}
    (shuffle : List α → List α) (capacity : List (α × ℕ)) (total : ℕ)
    (hgt : capsum capacity < total) :
    _get_assignments shuffle capacity total =
      .error (.capacityExceeded (capsum capacity) total) := by
  rw [_get_assignments, if_pos hgt]

/-- Witness for C5 at a concrete capacity mapping and total. -/
theorem C5_sampler_capacity_error_witness :
    _get_assignments (fun l => l) [((0 : ℕ), 1)] 2 =
      .error (.capacityExceeded (capsum [((0 : ℕ), 1)]) 2) :=
  C5_sampler_capacity_error (fun l => l) [((0 : ℕ), 1)] 2 (by decide)

/-- C8: the assignment sampler never mutates the capacity mapping it is given:
in the state-passing embedding both `_rand_assignment` and `_get_assignments`
return the capacity mapping exactly as received. -/
theorem C8_sampler_no_mutation {α : Type}
    (shuffle : List α → List α) (capacity : List (α × ℕ)) (total : ℕ) :
    (_rand_assignment_state shuffle capacity).2 = capacity ∧
      (_get_assignments_state shuffle capacity total).2 = capacity := by
  constructor
  · rfl
  · rw [_get_assignments_state]
    split <;> rfl

/-- C6: unequal marginal totals make the proportional fitter fail immediately
with the unequal-totals error, for any iteration fuel — i.e. before any
fitting iteration, and never silently normalized. -/
theorem C6_fit_unequal_totals (fuel : ℕ) (row_sum col_sum : List ℚ) (tolerance : ℚ)
    (hne : row_sum.sum ≠ col_sum.sum) :
    _proportional_fit fuel row_sum col_sum tolerance = .error .unequalTotals := by
  rw [_proportional_fit, if_neg hne]

unseal Rat.add in
/-- Witness for C6 at concrete unequal marginals, with zero fuel: the error is
raised before any iteration. -/
theorem C6_fit_unequal_totals_witness :
    _proportional_fit 0 [(1 : ℚ)] [(2 : ℚ)] (1/100) = .error .unequalTotals :=
  C6_fit_unequal_totals 0 [(1 : ℚ)] [(2 : ℚ)] (1/100) (by decide)

/-! ### Structural zeros and convergence of the fitter -/

/-- Out-of-range row access yields the default entry `0`. -/
theorem entry_none (T : Mat) (i j : ℕ) (h : T[i]? = none) : entry T i j = 0 := by
  rw [entry, List.getD_eq_getElem?_getD T i [], h]
  rfl

/-- In-range row access reduces `entry` to an access into that row. -/
theorem entry_some (T : Mat) (i j : ℕ) (row : List ℚ) (h : T[i]? = some row) :
    entry T i j = row.getD j 0 := by
  rw [entry, List.getD_eq_getElem?_getD T i [], h]
  rfl

/-- The row-fitting step preserves zero entries: a zero cell is rescaled by a
multiplicative factor. -/
theorem rowFit_zero (row_sum : List ℚ) (T T' : Mat) (h : rowFit row_sum T = some T')
    (i j : ℕ) (hz : entry T i j = 0) : entry T' i j = 0 := by
  rw [rowFit] at h
  split at h
  · exact absurd h (by simp)
  · injection h with h
    subst h
    cases hp : (row_sum.zip T)[i]? with
    | none =>
      refine entry_none _ i j ?_
      rw [List.getElem?_map, hp]
      rfl
    | some p =>
      have hT : T[i]? = some p.2 := ((List.getElem?_zip_eq_some).1 hp).2
      rw [entry_some T i j p.2 hT] at hz
      have h' : ((row_sum.zip T).map fun p => p.2.map fun x => p.1 * (x / p.2.sum))[i]? =
          some (p.2.map fun x => p.1 * (x / p.2.sum)) := by
        rw [List.getElem?_map, hp]
        rfl
      rw [entry_some _ i j _ h', List.getD_eq_getElem?_getD, List.getElem?_map]
      cases hq : p.2[j]? with
      | none => rfl
      | some x =>
        rw [List.getD_eq_getElem?_getD, hq, Option.getD_some] at hz
        simp [hz]

/-- The column-fitting step preserves zero entries likewise. -/
theorem colFit_zero (col_sum : List ℚ) (T T' : Mat) (h : colFit col_sum T = some T')
    (i j : ℕ) (hz : entry T i j = 0) : entry T' i j = 0 := by
  rw [colFit] at h
  split at h
  · exact absurd h (by simp)
  · injection h with h
    subst h
    cases hp : T[i]? with
    | none =>
      refine entry_none _ i j ?_
      rw [List.getElem?_map, hp]
      rfl
    | some row =>
      rw [entry_some T i j row hp] at hz
      have h' : (T.map fun row =>
          (row.zip (col_sum.zip (colSums T))).map fun p => p.2.1 * (p.1 / p.2.2))[i]? =
          some ((row.zip (col_sum.zip (colSums T))).map fun p => p.2.1 * (p.1 / p.2.2)) := by
        rw [List.getElem?_map, hp]
        rfl
      rw [entry_some _ i j _ h', List.getD_eq_getElem?_getD, List.getElem?_map]
      cases hq : (row.zip (col_sum.zip (colSums T)))[j]? with
      | none => rfl
      | some p =>
        have hrow : row[j]? = some p.1 := ((List.getElem?_zip_eq_some).1 hq).1
        rw [List.getD_eq_getElem?_getD, hrow, Option.getD_some] at hz
        simp [hz]

/-- The initial table satisfies the structural-zero pattern. -/
theorem initTable_zero (n m i j : ℕ) (hij : j < i) : entry (initTable n m) i j = 0 := by
  by_cases hi : i < n
  · have h' : (initTable n m)[i]? = some ((List.range m).map fun j => if j < i then (0 : ℚ) else 1) := by
      rw [initTable, List.getElem?_map, List.getElem?_range hi]
      rfl
    rw [entry_some _ i j _ h', List.getD_eq_getElem?_getD, List.getElem?_map]
    by_cases hj : j < m
    · rw [List.getElem?_range hj, Option.map_some', Option.getD_some, if_pos hij]
    · rw [List.getElem?_eq_none (by simpa using Nat.le_of_not_lt hj)]
      rfl
  · refine entry_none _ i j ?_
    rw [initTable, List.getElem?_map,
      List.getElem?_eq_none (by simpa using Nat.le_of_not_lt hi)]
    rfl

/-- One loop body preserves the structural-zero pattern. -/
theorem fitIter_zero (row_sum col_sum : List ℚ) (T T2 : Mat) (err : ℚ)
    (h : fitIter row_sum col_sum T = .ok (T2, err))
    (hz : ∀ i j, j < i → entry T i j = 0) :
    ∀ i j, j < i → entry T2 i j = 0 := by
  rw [fitIter] at h
  cases h1 : rowFit row_sum T with
  | none => simp [h1] at h
  | some T1 =>
    simp only [h1] at h
    cases h2 : colFit col_sum T1 with
    | none => simp [h2] at h
    | some T2' =>
      simp only [h2] at h
      injection h with h
      injection h with h _
      subst h
      intro i j hij
      exact colFit_zero col_sum T1 T2' h2 i j (rowFit_zero row_sum T T1 h1 i j (hz i j hij))

/-- The error component a loop body returns is the row squared error of the
table it returns. -/
theorem fitIter_err (row_sum col_sum : List ℚ) (T T2 : Mat) (err : ℚ)
    (h : fitIter row_sum col_sum T = .ok (T2, err)) : err = rowErrSq T2 row_sum := by
  rw [fitIter] at h
  cases h1 : rowFit row_sum T with
  | none => simp [h1] at h
  | some T1 =>
    simp only [h1] at h
    cases h2 : colFit col_sum T1 with
    | none => simp [h2] at h
    | some T2' =>
      simp only [h2] at h
      injection h with h
      injection h with h h'
      subst h
      exact h'.symm

/-- A successful run of the fitter loop preserves the structural-zero pattern
and exits only when the row squared error is at most the tolerance. -/
theorem fitLoop_ok (row_sum col_sum : List ℚ) (tolerance : ℚ) (fuel : ℕ) (T Tf : Mat)
    (h : fitLoop row_sum col_sum tolerance fuel T = .ok Tf)
    (hz : ∀ i j, j < i → entry T i j = 0) :
    (∀ i j, j < i → entry Tf i j = 0) ∧ rowErrSq Tf row_sum ≤ tolerance := by
  induction fuel generalizing T with
  | zero => cases h
  | succ n ih =>
    rw [fitLoop] at h
    cases hiter : fitIter row_sum col_sum T with
    | error e => simp [hiter] at h
    | ok p =>
      obtain ⟨T2, err⟩ := p
      simp only [hiter] at h
      by_cases hcmp : tolerance < err
      · rw [if_pos hcmp] at h
        exact ih T2 h (fitIter_zero row_sum col_sum T T2 err hiter hz)
      · rw [if_neg hcmp] at h
        injection h with h
        subst h
        refine ⟨fitIter_zero row_sum col_sum T T2 err hiter hz, ?_⟩
        rw [← fitIter_err row_sum col_sum T T2 err hiter]
        exact le_of_not_lt hcmp

/-- C2: whenever the proportional fitter terminates on non-negative marginals
with equal totals, the returned table keeps the structural-zero pattern
(`T[i, j] = 0` for `i > j`) and its row sums match the row marginals within
the squared-error tolerance. -/
theorem C2_fit_structural_zeros_and_tolerance (fuel : ℕ)
    (row_sum col_sum : List ℚ) (tolerance : ℚ) (T : Mat)
    (hR : ∀ x ∈ row_sum, 0 ≤ x) (hC : ∀ x ∈ col_sum, 0 ≤ x)
    (heq : row_sum.sum = col_sum.sum)
    (hok : _proportional_fit fuel row_sum col_sum tolerance = .ok T) :
    (∀ i j, j < i → entry T i j = 0) ∧ rowErrSq T row_sum ≤ tolerance := by
  rw [_proportional_fit, if_pos heq] at hok
  exact fitLoop_ok row_sum col_sum tolerance fuel _ T hok
    (fun i j hij => initTable_zero row_sum.length col_sum.length i j hij)

unseal Rat.add Rat.mul Rat.inv Rat.sub in
/-- Witness for C2: on marginals `[1, 1]` and `[1, 1]` the fitter terminates
with the table `[[1, 1/15], [0, 14/15]]`, whose below-diagonal cell is zero
and whose row error is within the tolerance. -/
theorem C2_fit_structural_zeros_and_tolerance_witness :
    entry [[1, 1/15], [0, 14/15]] 1 0 = 0 ∧
      rowErrSq [[1, 1/15], [0, 14/15]] [1, 1] ≤ 1/100 :=
  have h := C2_fit_structural_zeros_and_tolerance 10 [1, 1] [1, 1] (1/100)
    [[1, 1/15], [0, 14/15]] (by decide) (by decide) (by decide) (by rfl)
  ⟨h.1 1 0 (by decide), h.2⟩

/-! ### Non-convergence of the fitter on incompatible marginals -/

/-- One loop body on the invariant family of tables reached by the fitter on
marginals `R = [1, 2]`, `C = [2, 1]`: every iterate after the first column
step has the form `[[2, a], [0, 1 - a]]` with `0 < a < 1`, and the body maps
`a` to `a / (3a + 4)` with row squared error `2 (1 + a)^2 > 2`. -/
theorem c3_step (a : ℚ) (h0 : 0 < a) (h1 : a < 1) :
    fitIter [1, 2] [2, 1] [[2, a], [0, 1 - a]] =
      .ok ([[2, a/(3*a+4)], [0, 1 - a/(3*a+4)]], 2*(1 + a/(3*a+4))^2) := by
  have hd1 : (2 + (a + 0) : ℚ) ≠ 0 := by linarith
  have hd2 : (0 + (1 - a + 0) : ℚ) ≠ 0 := by intro h; apply absurd h1; intro _; linarith
  have hrow : ¬ ∃ row ∈ ([[2, a], [0, 1 - a]] : Mat), row ≠ [] ∧ List.sum row = 0 := by
    rintro ⟨row, hmem, hne, hsum⟩
    rcases List.mem_cons.1 hmem with h | h
    · subst h; simp [List.sum_cons] at hsum; linarith
    · rcases List.mem_cons.1 h with h | h
      · subst h; simp [List.sum_cons] at hsum; linarith
      · cases h
  rw [fitIter, rowFit, if_neg hrow]
  simp only [List.zip_cons_cons, List.zip_nil_right, List.zip_nil_left, List.map_cons, List.map_nil]
  have h1a : (1 - a : ℚ) ≠ 0 := fun h => (by linarith : (1:ℚ) ≠ 1) (by linarith)
  have hM : ([[1 * (2 / [2, a].sum), 1 * (a / [2, a].sum)],
      [2 * (0 / [0, 1 - a].sum), 2 * ((1 - a) / [0, 1 - a].sum)]] : Mat) =
      [[2/(2+a), a/(2+a)], [0, 2]] := by
    simp only [List.sum_cons, List.sum_nil]
    norm_num
    rw [div_self h1a]
  rw [hM]
  have hcs : colSums [[2/(2+a), a/(2+a)], [0, 2]] = [2/(2+a), a/(2+a)+2] := by
    simp [colSums, nCols]
  have hden : (3*a+4 : ℚ) ≠ 0 := by positivity
  have h2a : (2+a : ℚ) ≠ 0 := by positivity
  have hcol : colFit [2, 1] [[2/(2+a), a/(2+a)], [0, 2]] =
      some [[2, a/(3*a+4)], [0, 1 - a/(3*a+4)]] := by
    rw [colFit]
    simp only [hcs]
    rw [if_neg ?hg]
    case hg =>
      rintro ⟨-, s, hs, hs0⟩
      rcases List.mem_cons.1 hs with h | h
      · subst h
        exact absurd hs0 (by positivity)
      · rcases List.mem_cons.1 h with h | h
        · subst h
          apply absurd hs0
          have : (0:ℚ) < a/(2+a) + 2 := by positivity
          linarith
        · cases h
    simp only [List.zip_cons_cons, List.zip_nil_right, List.zip_nil_left, List.map_cons,
      List.map_nil]
    have e00 : (2 : ℚ) * ((2/(2+a)) / (2/(2+a))) = 2 := by
      rw [div_self (by positivity : (2/(2+a) : ℚ) ≠ 0)]
      norm_num
    have e01 : (1 : ℚ) * ((a/(2+a)) / (a/(2+a)+2)) = a/(3*a+4) := by
      rw [one_mul, div_add' _ _ _ h2a, div_div_div_cancel_right₀ h2a]
      congr 1
      ring
    have e10 : (2 : ℚ) * ((0:ℚ) / (2/(2+a))) = 0 := by
      rw [zero_div, mul_zero]
    have e11 : (1 : ℚ) * ((2:ℚ) / (a/(2+a)+2)) = 1 - a/(3*a+4) := by
      rw [one_mul, div_add' _ _ _ h2a]
      rw [div_div_eq_mul_div, eq_sub_iff_add_eq,
        div_add_div _ _ (show (a + 2*(2+a) : ℚ) ≠ 0 from by ring_nf; ring_nf at hden; exact hden) hden]
      rw [div_eq_one_iff_eq (mul_ne_zero (show (a + 2*(2+a) : ℚ) ≠ 0 from by ring_nf; ring_nf at hden; exact hden) hden)]
      ring
    rw [e00, e01, e10, e11]
  simp only [hcol]
  have herr : rowErrSq [[2, a/(3*a+4)], [0, 1 - a/(3*a+4)]] [1, 2] =
      2 * (1 + a/(3*a+4)) ^ 2 := by
    simp [rowErrSq]
    ring
  rw [herr]

/-- On marginals `[1, 2]` / `[2, 1]` the fitter loop never exits from any
table of the invariant family, whatever the fuel: the row squared error stays
above `2`, far beyond the tolerance `1/100`. -/
theorem c3_loop (n : ℕ) (a : ℚ) (h0 : 0 < a) (h1 : a < 1) :
    fitLoop [1, 2] [2, 1] (1/100) n [[2, a], [0, 1 - a]] = .error .noConverge := by
  induction n generalizing a with
  | zero => rfl
  | succ n ih =>
    rw [fitLoop]
    simp only [c3_step a h0 h1]
    have hb0 : 0 < a/(3*a+4) := by positivity
    rw [if_pos (show (1/100 : ℚ) < 2*(1 + a/(3*a+4))^2 from by nlinarith)]
    have hb1 : a/(3*a+4) < 1 := by
      rw [div_lt_one (by positivity)]
      linarith
    exact ih (a/(3*a+4)) hb0 hb1

unseal Rat.add Rat.mul Rat.inv Rat.sub in
/-- The first iteration on marginals `[1, 2]` / `[2, 1]` from the initial
upper-triangular table of ones, evaluated concretely. -/
theorem c3_first_step :
    fitIter [1, 2] [2, 1] [[1, 1], [0, 1]] = .ok ([[2, 1/5], [0, 4/5]], 72/25) := rfl

/-- C3: the proportional fitter has no maximum-iteration bound and loops
forever on the incompatible marginals `R = [1, 2]`, `C = [2, 1]` (equal
totals, upper-triangular support forces row sums toward `[2, 1]`): for every
iteration fuel the model still reports non-convergence, i.e. the concrete
`while` loop never terminates on this input. -/
theorem C3_fit_unbounded_iteration (fuel : ℕ) :
    _proportional_fit fuel [1, 2] [2, 1] (1/100) = .error .noConverge := by
  have hsum : ([1, 2] : List ℚ).sum = ([2, 1] : List ℚ).sum := by norm_num
  rw [_proportional_fit, if_pos hsum]
  cases fuel with
  | zero => rfl
  | succ n =>
    have hinit : initTable ([1, 2] : List ℚ).length ([2, 1] : List ℚ).length =
        [[1, 1], [0, 1]] := by
      simp [initTable, List.range_succ]
    rw [hinit, fitLoop]
    simp only [c3_first_step]
    rw [if_pos (by norm_num : (1/100 : ℚ) < 72/25)]
    have h45 : (4/5 : ℚ) = 1 - 1/5 := by norm_num
    rw [h45]
    exact c3_loop n (1/5) (by norm_num) (by norm_num)

unseal Rat.add Rat.mul Rat.inv Rat.sub in
/-- On marginals `[1, 1]` / `[2]` (equal totals) the first row step divides the
all-zero second row by its zero sum: the model flags the unguarded division. -/
theorem fitIter_div_by_zero_example :
    fitIter [1, 1] [2] [[1], [0]] = .error .divByZero := rfl

/-- C7: a structurally-zero row with a nonzero marginal target is not guarded
by any input-shape check: on marginals `[1, 1]` / `[2]` the fitter passes the
equal-totals assertion and reaches the rescaling division by the zero row sum
in its very first iteration, for every positive fuel — numpy would perform the
division unguarded, yielding nan, rather than raise a fatal error. -/
theorem C7_fit_div_by_zero_unguarded (n : ℕ) :
    _proportional_fit (n + 1) [1, 1] [2] (1/100) = .error .divByZero := by
  have hsum : ([1, 1] : List ℚ).sum = ([2] : List ℚ).sum := by norm_num
  rw [_proportional_fit, if_pos hsum]
  have hinit : initTable ([1, 1] : List ℚ).length ([2] : List ℚ).length = [[1], [0]] := by
    simp [initTable, List.range_succ]
  rw [hinit, fitLoop]
  simp only [fitIter_div_by_zero_example]

/-! ### The occupancy rule of `add_household` -/

/-- C1 (code bug evaluation): a household of size 3 receives `wknum = 3` adult
workers but also `stnum = 3 - 2 = 1` child student — four members in a size-3
household — because line 71 uses the cutoff `size > 3` while line 73 uses
`size < 3`.  The claimed rule (3 workers, 0 students) does not hold. -/
theorem C1_size3_creates_one_student :
    (add_household 3 0 ⟨0, 1, 2, []⟩ ⟨[], [], [], []⟩
        ⟨[[5]], [7], [9, 10, 11], [12]⟩).map
      (fun r => (r.2.2.adults.length, r.2.2.children.length)) = some (3, 1) := rfl

/-- The worker half of the occupancy rule, as implemented: `size` workers for
`size ≤ 3`, two workers above. -/
theorem hh_workers_spec (size : ℕ) : hh_workers size = if 3 < size then 2 else size := rfl

/-- The student half of the occupancy rule, as implemented: in particular a
size-3 household contributes one student, not zero. -/
theorem hh_students_spec : hh_students 3 = 1 := rfl

/-! ### Membership and counting facts of the household builder -/

/-- The worker-creation loop appends exactly the new adults it creates, all at
the given residence, touching neither the household pool nor the child pool. -/
theorem addAdultsLoop_spec (r : ℕ) (p : List ℕ) (n : ℕ) (st : PopState) (off : List ℕ)
    (acc : List Adult) (st1 : PopState) (off1 : List ℕ) (acc1 : List Adult)
    (h : addAdultsLoop r p n st off acc = some (st1, off1, acc1)) :
    ∃ new, acc1 = acc ++ new ∧ st1.adults = st.adults ++ new ∧
      st1.children = st.children ∧ st1.households = st.households ∧
      ∀ a ∈ new, a.residence = r := by
  induction n generalizing st off acc with
  | zero =>
    rw [addAdultsLoop.eq_def] at h
    simp only [Option.some.injEq, Prod.mk.injEq] at h
    obtain ⟨h1, h2, h3⟩ := h
    subst h1; subst h3
    exact ⟨[], by simp⟩
  | succ n ih =>
    rw [addAdultsLoop.eq_def] at h
    cases off with
    | nil => cases h
    | cons o rest =>
      simp only at h
      obtain ⟨new, hacc, had, hch, hhh, hres⟩ := ih _ _ _ h
      refine ⟨⟨st.individuals.length, r, o, p⟩ :: new, ?_, ?_, hch, hhh, ?_⟩
      · rw [hacc]; simp
      · rw [had]; simp
      · intro a ha
        rcases List.mem_cons.1 ha with h' | h'
        · subst h'; rfl
        · exact hres a h'

/-- The student-creation loop appends exactly the new children it creates, all
at the given residence, touching neither the household pool nor the adult
pool. -/
theorem addChildrenLoop_spec (r : ℕ) (p : List ℕ) (n : ℕ) (st : PopState) (sch : List ℕ)
    (acc : List Child) (st1 : PopState) (sch1 : List ℕ) (acc1 : List Child)
    (h : addChildrenLoop r p n st sch acc = some (st1, sch1, acc1)) :
    ∃ new, acc1 = acc ++ new ∧ st1.children = st.children ++ new ∧
      st1.adults = st.adults ∧ st1.households = st.households ∧
      ∀ c ∈ new, c.residence = r := by
  induction n generalizing st sch acc with
  | zero =>
    rw [addChildrenLoop.eq_def] at h
    simp only [Option.some.injEq, Prod.mk.injEq] at h
    obtain ⟨h1, h2, h3⟩ := h
    subst h1; subst h3
    exact ⟨[], by simp⟩
  | succ n ih =>
    rw [addChildrenLoop.eq_def] at h
    cases sch with
    | nil => cases h
    | cons o rest =>
      simp only at h
      obtain ⟨new, hacc, hch, had, hhh, hres⟩ := ih _ _ _ h
      refine ⟨⟨st.individuals.length, r, o, p⟩ :: new, ?_, ?_, had, hhh, ?_⟩
      · rw [hacc]; simp
      · rw [hch]; simp
      · intro c hc
        rcases List.mem_cons.1 hc with h' | h'
        · subst h'; rfl
        · exact hres c h'

/-- Inversion of a successful `add_household`: the household is appended to
the pool, its member lists are appended to the population's pools, exactly one
program is consumed, and every member lives at the household's residence. -/
theorem add_household_spec (size fleet : ℕ) (dem : Demand) (st : PopState) (ss : Streams)
    (st' : PopState) (ss' : Streams) (hh : Household)
    (h : add_household size fleet dem st ss = some (st', ss', hh)) :
    st'.households = st.households ++ [hh] ∧
      st'.adults = st.adults ++ hh.adults ∧
      st'.children = st.children ++ hh.children ∧
      ss.programs = hh.program :: ss'.programs ∧
      (∀ a ∈ hh.adults, a.residence = hh.residence) ∧
      (∀ c ∈ hh.children, c.residence = hh.residence) := by
  rw [add_household.eq_def] at h
  cases hres : ss.residences with
  | nil => rw [hres] at h; cases h
  | cons res resRest =>
    cases hprog : ss.programs with
    | nil => rw [hres, hprog] at h; cases h
    | cons prog progRest =>
      rw [hres, hprog] at h
      simp only at h
      cases hA : addAdultsLoop res ([dem.home, dem.work] ++ prog) (hh_workers size) st
          ss.offices [] with
      | none => rw [hA] at h; cases h
      | some r1 =>
        obtain ⟨st1, offRest, hhAdults⟩ := r1
        rw [hA] at h
        simp only at h
        cases hC : addChildrenLoop res ([dem.home, dem.school] ++ prog) (hh_students size) st1
            ss.schools [] with
        | none => rw [hC] at h; cases h
        | some r2 =>
          obtain ⟨st2, schRest, hhChildren⟩ := r2
          rw [hC] at h
          simp only [Option.some.injEq, Prod.mk.injEq] at h
          obtain ⟨h1, h2, h3⟩ := h
          subst h1; subst h2; subst h3
          obtain ⟨newA, haccA, hadA, hchA, hhhA, hresA⟩ :=
            addAdultsLoop_spec _ _ _ _ _ _ _ _ _ hA
          obtain ⟨newC, haccC, hchC, hadC, hhhC, hresC⟩ :=
            addChildrenLoop_spec _ _ _ _ _ _ _ _ _ hC
          simp only [List.nil_append] at haccA haccC
          subst haccA; subst haccC
          refine ⟨?_, ?_, ?_, ?_, ?_, ?_⟩
          · simp [hhhC, hhhA]
          · simp [hadC, hadA]
          · simp [hchC, hchA]
          · rfl
          · intro a ha; exact hresA a ha
          · intro c hc; exact hresC c hc

/-- C9: every adult and every child created by `add_household` has residence
equal to the residence of the household that created it (the pools receive
exactly those members, none with a separately drawn residence). -/
theorem C9_members_share_household_residence (size fleet : ℕ) (dem : Demand)
    (st : PopState) (ss : Streams) (st' : PopState) (ss' : Streams) (hh : Household)
    (h : add_household size fleet dem st ss = some (st', ss', hh)) :
    st'.adults = st.adults ++ hh.adults ∧ st'.children = st.children ++ hh.children ∧
      (∀ a ∈ hh.adults, a.residence = hh.residence) ∧
      (∀ c ∈ hh.children, c.residence = hh.residence) :=
  have s := add_household_spec size fleet dem st ss st' ss' hh h
  ⟨s.2.1, s.2.2.1, s.2.2.2.2.1, s.2.2.2.2.2⟩

/-- Witness for C9 at a concrete size-3 household. -/
theorem C9_members_share_household_residence_witness :
    (⟨1, 7, 10, [0, 1, 5]⟩ : Adult).residence =
        (⟨0, 3, 0, 7, [5],
          [⟨0, 7, 9, [0, 1, 5]⟩, ⟨1, 7, 10, [0, 1, 5]⟩, ⟨2, 7, 11, [0, 1, 5]⟩],
          [⟨3, 7, 12, [0, 2, 5]⟩]⟩ : Household).residence ∧
      (⟨3, 7, 12, [0, 2, 5]⟩ : Child).residence =
        (⟨0, 3, 0, 7, [5],
          [⟨0, 7, 9, [0, 1, 5]⟩, ⟨1, 7, 10, [0, 1, 5]⟩, ⟨2, 7, 11, [0, 1, 5]⟩],
          [⟨3, 7, 12, [0, 2, 5]⟩]⟩ : Household).residence :=
  have h := C9_members_share_household_residence 3 0 ⟨0, 1, 2, []⟩ ⟨[], [], [], []⟩
    ⟨[[5]], [7], [9, 10, 11], [12]⟩
    ⟨[⟨0, 3, 0, 7, [5],
        [⟨0, 7, 9, [0, 1, 5]⟩, ⟨1, 7, 10, [0, 1, 5]⟩, ⟨2, 7, 11, [0, 1, 5]⟩],
        [⟨3, 7, 12, [0, 2, 5]⟩]⟩],
      [⟨0, 7, 9, [0, 1, 5]⟩, ⟨1, 7, 10, [0, 1, 5]⟩, ⟨2, 7, 11, [0, 1, 5]⟩],
      [⟨3, 7, 12, [0, 2, 5]⟩],
      [Sum.inl ⟨0, 7, 9, [0, 1, 5]⟩, Sum.inl ⟨1, 7, 10, [0, 1, 5]⟩,
        Sum.inl ⟨2, 7, 11, [0, 1, 5]⟩, Sum.inr ⟨3, 7, 12, [0, 2, 5]⟩]⟩
    ⟨[], [], [], []⟩
    ⟨0, 3, 0, 7, [5],
      [⟨0, 7, 9, [0, 1, 5]⟩, ⟨1, 7, 10, [0, 1, 5]⟩, ⟨2, 7, 11, [0, 1, 5]⟩],
      [⟨3, 7, 12, [0, 2, 5]⟩]⟩ rfl
  ⟨h.2.2.1 _ (by decide), h.2.2.2 _ (by decide)⟩

/-- `repeatHH` creates exactly `n` households and consumes exactly `n`
programs. -/
theorem repeatHH_spec (size fleet : ℕ) (dem : Demand) (n : ℕ) (st : PopState) (ss : Streams)
    (st' : PopState) (ss' : Streams) (h : repeatHH size fleet dem n st ss = some (st', ss')) :
    st'.households.length = st.households.length + n ∧
      ss.programs.length = ss'.programs.length + n := by
  induction n generalizing st ss with
  | zero =>
    rw [repeatHH.eq_def] at h
    simp only [Option.some.injEq, Prod.mk.injEq] at h
    obtain ⟨h1, h2⟩ := h
    subst h1; subst h2
    omega
  | succ n ih =>
    rw [repeatHH.eq_def] at h
    simp only at h
    cases hA : add_household size fleet dem st ss with
    | none => rw [hA] at h; cases h
    | some r =>
      obtain ⟨st1, ss1, hh⟩ := r
      rw [hA] at h
      simp only at h
      obtain ⟨hlen, hprog⟩ := ih st1 ss1 h
      obtain ⟨hhh, -, -, hpr, -, -⟩ := add_household_spec size fleet dem st ss st1 ss1 hh hA
      rw [hhh] at hlen
      rw [hpr]
      simp only [List.length_append, List.length_cons, List.length_nil] at hlen ⊢
      omega

/-- The cell walk creates exactly the per-cell rounded counts of households,
consuming one program per household. -/
theorem runCells_spec (dem : Demand) (size_freq fleet_freq : List (ℕ × ℕ)) (table : Mat)
    (cells : List (ℕ × ℕ)) (st : PopState) (ss : Streams) (st' : PopState) (ss' : Streams)
    (h : runCells dem size_freq fleet_freq table cells st ss = some (st', ss')) :
    st'.households.length = st.households.length +
        (cells.map fun p => (pyRound (entry table p.1 p.2)).toNat).sum ∧
      ss.programs.length = ss'.programs.length +
        (cells.map fun p => (pyRound (entry table p.1 p.2)).toNat).sum := by
  induction cells generalizing st ss with
  | nil =>
    rw [runCells.eq_def] at h
    simp only [Option.some.injEq, Prod.mk.injEq] at h
    obtain ⟨h1, h2⟩ := h
    subst h1; subst h2
    simp
  | cons c rest ih =>
    obtain ⟨i, j⟩ := c
    rw [runCells.eq_def] at h
    simp only at h
    cases hR : repeatHH (size_freq.getD j (0, 0)).1 (fleet_freq.getD i (0, 0)).1 dem
        ((pyRound (entry table i j)).toNat) st ss with
    | none => rw [hR] at h; cases h
    | some r =>
      obtain ⟨st1, ss1⟩ := r
      rw [hR] at h
      simp only at h
      obtain ⟨hlen1, hprog1⟩ := repeatHH_spec _ _ _ _ _ _ _ _ hR
      obtain ⟨hlen2, hprog2⟩ := ih st1 ss1 h
      simp only [List.map_cons, List.sum_cons]
      omega

/-- A successful sampler call returns exactly `total` items when the shuffle
permutes its input. -/
theorem get_assignments_ok_length {α : Type} (shuffle : List α → List α)
    (capacity : List (α × ℕ)) (total : ℕ) (out : List α)
    (hsh : ∀ l, (shuffle l).Perm l)
    (h : _get_assignments shuffle capacity total = .ok out) : out.length = total := by
  rw [_get_assignments] at h
  split at h
  · cases h
  · injection h with h
    subst h
    rw [List.length_take, _rand_assignment, (hsh _).length_eq, pool_length]
    omega

/-- A completed `create_households` run creates one household per unit of the
per-cell rounded sum of the fitted table, which therefore cannot exceed
`hhnum`, the length of the program and residence streams. -/
theorem c10_main (fuel : ℕ) (shP : List (List ℕ) → List (List ℕ))
    (shR shO shS : List ℕ → List ℕ)
    (size_freq fleet_freq prog_freq : List (ℕ × ℕ)) (land : Land) (dem : Demand)
    (T : Mat) (st : PopState)
    (hP : ∀ l, (shP l).Perm l)
    (hfit : _proportional_fit fuel (fleet_freq.map fun p => (p.2 : ℚ))
      (size_freq.map fun p => (p.2 : ℚ)) (1/100) = .ok T)
    (hok : create_households fuel shP shR shO shS size_freq fleet_freq prog_freq land dem
      = .ok st) :
    st.households.length = cellRoundSum T ∧ cellRoundSum T ≤ hhnumOf T := by
  rw [create_households] at hok
  simp only [hfit] at hok
  cases hres : resolvePrograms dem prog_freq with
  | none => simp [hres] at hok
  | some program_freq =>
    simp only [hres] at hok
    cases hprg : _get_assignments shP program_freq (hhnumOf T) with
    | error e => simp [hprg] at hok
    | ok programs =>
      simp only [hprg] at hok
      cases hrsd : _get_assignments shR land.home (hhnumOf T) with
      | error e => simp [hrsd] at hok
      | ok residences =>
        simp only [hrsd] at hok
        cases hoff : _get_assignments shO land.work
            ((size_freq.map fun p => hh_workers p.1 * p.2).sum) with
        | error e => simp [hoff] at hok
        | ok offices =>
          simp only [hoff] at hok
          cases hsch : _get_assignments shS land.school
              ((size_freq.map fun p => hh_students p.1 * p.2).sum) with
          | error e => simp [hsch] at hok
          | ok schools =>
            simp only [hsch] at hok
            cases hrun : runCells dem size_freq fleet_freq T
                (ndrange (nRows T) (nCols T)) ⟨[], [], [], []⟩
                ⟨programs, residences, offices, schools⟩ with
            | none => simp [hrun] at hok
            | some r =>
              obtain ⟨st0, ss0⟩ := r
              simp only [hrun] at hok
              injection hok with hok
              subst hok
              obtain ⟨hlen, hcons⟩ := runCells_spec dem size_freq fleet_freq T
                (ndrange (nRows T) (nCols T)) ⟨[], [], [], []⟩
                ⟨programs, residences, offices, schools⟩ st0 ss0 hrun
              have hplen : programs.length = hhnumOf T :=
                get_assignments_ok_length shP program_freq (hhnumOf T) programs hP hprg
              rw [cellRoundSum]
              simp only [List.length_nil] at hlen
              simp only at hcons
              constructor
              · omega
              · rw [← hplen]
                omega



unseal Rat.add Rat.mul Rat.inv Rat.sub in
/-- C10: (1) every completed `create_households` run creates exactly the sum
over all cells of `int(round(T[i, j]))` households, and that sum never exceeds
`hhnum = int(round(T.sum()))`, the size of the program and residence streams;
(2) the per-cell rounded sum can differ from `hhnum` (marginals `[3, 2]` and
`[1, 1, 3]` fit to `[[1, 1/2, 3/2], [0, 1/2, 3/2]]`, whose cells round to a
total of 7 while `hhnum = 5`); (3) whenever the per-cell sum exceeds `hhnum`
the run cannot complete — the streams are exhausted partway and the call
fails. -/
theorem C10_household_count_is_cell_round_sum :
    (∀ (fuel : ℕ) (shP : List (List ℕ) → List (List ℕ)) (shR shO shS : List ℕ → List ℕ)
        (size_freq fleet_freq prog_freq : List (ℕ × ℕ)) (land : Land) (dem : Demand)
        (T : Mat) (st : PopState),
      (∀ l, (shP l).Perm l) →
      _proportional_fit fuel (fleet_freq.map fun p => (p.2 : ℚ))
          (size_freq.map fun p => (p.2 : ℚ)) (1/100) = .ok T →
      create_households fuel shP shR shO shS size_freq fleet_freq prog_freq land dem
          = .ok st →
      st.households.length = cellRoundSum T ∧ cellRoundSum T ≤ hhnumOf T) ∧
    (∃ (fuel : ℕ) (size_freq fleet_freq : List (ℕ × ℕ)) (T : Mat),
      _proportional_fit fuel (fleet_freq.map fun p => (p.2 : ℚ))
          (size_freq.map fun p => (p.2 : ℚ)) (1/100) = .ok T ∧
      cellRoundSum T ≠ hhnumOf T) ∧
    (∀ (fuel : ℕ) (shP : List (List ℕ) → List (List ℕ)) (shR shO shS : List ℕ → List ℕ)
        (size_freq fleet_freq prog_freq : List (ℕ × ℕ)) (land : Land) (dem : Demand)
        (T : Mat),
      (∀ l, (shP l).Perm l) →
      _proportional_fit fuel (fleet_freq.map fun p => (p.2 : ℚ))
          (size_freq.map fun p => (p.2 : ℚ)) (1/100) = .ok T →
      hhnumOf T < cellRoundSum T →
      ∀ st, create_households fuel shP shR shO shS size_freq fleet_freq prog_freq land dem
          ≠ .ok st) := by
  refine ⟨fun fuel shP shR shO shS sf ff pf land dem T st hP hfit hok =>
      c10_main fuel shP shR shO shS sf ff pf land dem T st hP hfit hok, ?_, ?_⟩
  · exact ⟨1, [(1, 1), (2, 1), (3, 3)], [(0, 3), (1, 2)],
      [[1, 1/2, 3/2], [0, 1/2, 3/2]], by rfl, by decide⟩
  · intro fuel shP shR shO shS sf ff pf land dem T hP hfit hlt st hok
    have h := c10_main fuel shP shR shO shS sf ff pf land dem T st hP hfit hok
    omega

unseal Rat.add Rat.mul Rat.inv Rat.sub in
/-- Witness for C10: a concrete completing run on a 1-by-1 frequency
specification (part 1), and the concrete exceeding input, on which
`create_households` fails for any result state (part 3). -/
theorem C10_household_count_is_cell_round_sum_witness :
    ((⟨[⟨0, 1, 0, 7, [5], [⟨0, 7, 9, [0, 1, 5]⟩], []⟩], [⟨0, 7, 9, [0, 1, 5]⟩], [],
        [Sum.inl ⟨0, 7, 9, [0, 1, 5]⟩]⟩ : PopState).households.length =
          cellRoundSum [[1]] ∧ cellRoundSum [[1]] ≤ hhnumOf [[1]]) ∧
      create_households 1 (fun l => l) (fun l => l) (fun l => l) (fun l => l)
        [(1, 1), (2, 1), (3, 3)] [(0, 3), (1, 2)] [(0, 99)]
        ⟨[(7, 99)], [(9, 99)], [(11, 99)]⟩ ⟨0, 1, 2, [(0, [5])]⟩ ≠ .ok ⟨[], [], [], []⟩ :=
  ⟨C10_household_count_is_cell_round_sum.1 1 (fun l => l) (fun l => l) (fun l => l)
      (fun l => l) [(1, 1)] [(0, 1)] [(0, 1)] ⟨[(7, 1)], [(9, 1)], []⟩ ⟨0, 1, 2, [(0, [5])]⟩
      [[1]] _ (fun l => List.Perm.refl l) (by rfl) (by rfl),
    C10_household_count_is_cell_round_sum.2.2 1 (fun l => l) (fun l => l) (fun l => l)
      (fun l => l) [(1, 1), (2, 1), (3, 3)] [(0, 3), (1, 2)] [(0, 99)]
      ⟨[(7, 99)], [(9, 99)], [(11, 99)]⟩ ⟨0, 1, 2, [(0, [5])]⟩
      [[1, 1/2, 3/2], [0, 1/2, 3/2]] (fun l => List.Perm.refl l) (by rfl) (by decide)
      ⟨[], [], [], []⟩⟩
